import Mathlib

/-!
Verification of the golink_service storage layer and service layer.

The development shallowly embeds the Rust sources:
* `src/src/storage.rs` — the `GoStorage` trait with its two backends,
  `HashMapStorage` (volatile, an in-process map guarded by a RwLock) and
  `SqliteStorage` (durable, one relational table keyed by `short_link`).
* `src/src/service.rs` — the warp handlers: alias validation, entity
  construction, pagination-mode dispatch and error mapping.

Modelling conventions:
* Each storage operation in the Rust code runs under a lock (volatile
  backend) or as a single SQL statement (durable backend), so an operation
  is embedded as one atomic state transformer
  `σ → Except StorageError α × σ`.
* The volatile backend's `HashMap<String, Golink>` is embedded as a
  `List Golink` holding the entries in the map's iteration order, with
  `short_link` as the key; `insert` on a fresh key is modelled as an
  append.  Rust's iteration order is arbitrary; fixing it as insertion
  order is one admissible order, and none of the operations below sorts
  or otherwise depends on a particular order except where proved.
* The durable backend's table is likewise a `List Golink` of rows in
  insertion order; `ORDER BY created_at DESC` is a stable descending sort,
  `LIMIT`/`OFFSET` are `take`/`drop`, `COUNT` is `length`.
* `created_at` is an RFC3339 `String` in both backends.  Rust's
  `String::cmp` compares UTF-8 bytes and SQLite's default BINARY collation
  compares bytes; UTF-8 byte order coincides with code-point order, which
  `chLe` below implements.
-/

/-! ## Definitions -/

/-- Lexicographic order on character lists by code point; agrees with the
byte order used by Rust `String::cmp` and by SQLite BINARY collation. -/
def chLe : List Char → List Char → Bool
  | [], _ => true
  | _ :: _, [] => false
  | a :: as, b :: bs =>
    if a.toNat < b.toNat then true
    else if b.toNat < a.toNat then false
    else chLe as bs

/-- Lexicographic (byte-order) comparison of strings. -/
def strLe (a b : String) : Bool := chLe a.data b.data

/-- The Golink record (`service.rs`): all four fields are strings; `id` is
a UUID, `created_at` an RFC3339 timestamp, both generated at creation. -/
structure Golink where
  id : String
  short_link : String
  url : String
  created_at : String
deriving DecidableEq, Repr

/-- `StorageError` from `storage.rs`. -/
inductive StorageError where
  | notFound
  | alreadyExists
  | databaseError (detail : String)
deriving DecidableEq, Repr

/-- The comparator used by both backends for listings: `a` before `b`
when `b.created_at <= a.created_at` in byte order, i.e. descending by
`created_at` (Rust: `sort_by(|a, b| b.created_at.cmp(&a.created_at))`;
SQL: `ORDER BY created_at DESC`). -/
def createdDesc (a b : Golink) : Prop := strLe b.created_at a.created_at = true

instance : DecidableRel createdDesc := fun a b => by
  unfold createdDesc; infer_instance

/-- The descending-by-`created_at` listing of a collection of Golinks.
Both the Rust `sort_by` (a stable sort) and the model's insertion sort are
stable, so they agree on ties. -/
def sortByCreatedDesc (l : List Golink) : List Golink :=
  l.insertionSort createdDesc

/-- State of `HashMapStorage`: the map's entries, keyed by `short_link`,
in iteration order. -/
abbrev HMState := List Golink

namespace HashMapStorage

/-- `store.contains_key(&short_link)`. -/
def containsKey (k : String) (st : HMState) : Bool :=
  st.any (fun g => g.short_link = k)

/-- `HashMapStorage::create`: under one write lock, check presence then
insert — a single atomic state transformer in the model. -/
def create (g : Golink) (st : HMState) : Except StorageError Unit × HMState :=
  if containsKey g.short_link st then (.error .alreadyExists, st)
  else (.ok (), st ++ [g])

/-- `HashMapStorage::get`. -/
def get (k : String) (st : HMState) : Except StorageError Golink :=
  match st.find? (fun g => g.short_link = k) with
  | some g => .ok g
  | none => .error .notFound

/-- `HashMapStorage::get_all`: `store.values().cloned().collect()` — the
values in map iteration order, with no sort applied. -/
def get_all (st : HMState) : Except StorageError (List Golink) :=
  .ok st

/-- `HashMapStorage::get_paginated`: materialize all values, sort
descending by `created_at`, then slice.  `page.saturating_sub(1)` is
Nat truncated subtraction. -/
def get_paginated (page page_size : Nat) (st : HMState) :
    Except StorageError (List Golink × Nat) :=
  let all_golinks := sortByCreatedDesc st
  let total_items := all_golinks.length
  let offset := (page - 1) * page_size
  let paginated_items :=
    if offset < total_items then (all_golinks.drop offset).take page_size
    else []
  .ok (paginated_items, total_items)

/-- `store.get_mut(short_link)` then set `url`: locate the entry for the
key, replace its `url`, return the updated entry; `None` on a missing key.
The helper walks the entry list and rewrites the first match (a map holds
at most one entry per key). -/
def updateEntry (k url : String) : List Golink → Option (Golink × List Golink)
  | [] => none
  | g :: rest =>
    if g.short_link = k then
      let g2 : Golink := { g with url := url }
      some (g2, g2 :: rest)
    else
      match updateEntry k url rest with
      | none => none
      | some (r, rest2) => some (r, g :: rest2)

/-- `HashMapStorage::update`. -/
def update (k url : String) (st : HMState) :
    Except StorageError Golink × HMState :=
  match updateEntry k url st with
  | some (g, st2) => (.ok g, st2)
  | none => (.error .notFound, st)

end HashMapStorage

/-- State of `SqliteStorage`: the rows of the `golinks` table in insertion
order.  The schema's UNIQUE constraint on `short_link` is enforced by
`create` below. -/
abbrev SqState := List Golink

namespace SqliteStorage

/-- `SqliteStorage::create`: a single `INSERT`; the engine's unique
constraint on `short_link` rejects duplicates, which the code translates
to `AlreadyExists`. -/
def create (g : Golink) (st : SqState) : Except StorageError Unit × SqState :=
  if st.any (fun r => r.short_link = g.short_link) then
    (.error .alreadyExists, st)
  else (.ok (), st ++ [g])

/-- `SqliteStorage::get`: `SELECT ... WHERE short_link = ?` with
`fetch_optional`; at most one row matches under the unique constraint. -/
def get (k : String) (st : SqState) : Except StorageError Golink :=
  match st.find? (fun r => r.short_link = k) with
  | some r => .ok r
  | none => .error .notFound

/-- `SqliteStorage::get_all`: `SELECT ... ORDER BY created_at DESC`. -/
def get_all (st : SqState) : Except StorageError (List Golink) :=
  .ok (sortByCreatedDesc st)

/-- `SqliteStorage::get_paginated`: a `COUNT(*)` plus an ordered
`LIMIT ? OFFSET ?` query; `page.saturating_sub(1)` is Nat subtraction. -/
def get_paginated (page page_size : Nat) (st : SqState) :
    Except StorageError (List Golink × Nat) :=
  let offset := (page - 1) * page_size
  let total_count := st.length
  let rows := ((sortByCreatedDesc st).drop offset).take page_size
  .ok (rows, total_count)

/-- `SqliteStorage::update`: `UPDATE golinks SET url = ? WHERE
short_link = ?`; zero affected rows becomes `NotFound`, otherwise the
updated record is re-fetched with `get`. -/
def update (k url : String) (st : SqState) :
    Except StorageError Golink × SqState :=
  if st.any (fun r => r.short_link = k) then
    let st2 := st.map (fun r => if r.short_link = k then { r with url := url } else r)
    (get k st2, st2)
  else (.error .notFound, st)

end SqliteStorage

/-- The `GoStorage` trait (`storage.rs`): the capability interface the
service is written against (`Arc<dyn GoStorage>`).  Reads return no new
state; writes return the successor state. -/
structure StorageOps (σ : Type) where
  create : Golink → σ → Except StorageError Unit × σ
  get : String → σ → Except StorageError Golink
  get_all : σ → Except StorageError (List Golink)
  get_paginated : Nat → Nat → σ → Except StorageError (List Golink × Nat)
  update : String → String → σ → Except StorageError Golink × σ

/-- The volatile backend packaged as the capability. -/
def hashMapOps : StorageOps HMState where
  create := HashMapStorage.create
  get := HashMapStorage.get
  get_all := HashMapStorage.get_all
  get_paginated := HashMapStorage.get_paginated
  update := HashMapStorage.update

/-- The durable backend packaged as the capability. -/
def sqliteOps : StorageOps SqState where
  create := SqliteStorage.create
  get := SqliteStorage.get
  get_all := SqliteStorage.get_all
  get_paginated := SqliteStorage.get_paginated
  update := SqliteStorage.update

/-- `CreateGolink` request body (`service.rs`). -/
structure CreateGolink where
  short_link : String
  url : String
deriving DecidableEq, Repr

/-- An outward response body, one constructor per JSON shape the handlers
serialize. -/
inductive Body where
  | golink (g : Golink)
  | golinkList (gs : List Golink)
  | paginated (data : List Golink) (page page_size total_items total_pages : Nat)
  | errorMsg (msg : String)
deriving DecidableEq, Repr

/-- An outward HTTP response: status code plus JSON body. -/
structure Response where
  status : Nat
  body : Body
deriving DecidableEq, Repr

/-- One character of the class `[a-zA-Z0-9_-]` in the alias regex (the
regex crate's classes here are ASCII-only, as are these Char tests). -/
def isAllowedChar (c : Char) : Bool :=
  c.isAlpha || c.isDigit || c = '_' || c = '-'

/-- Whole-string match of `^go/[a-zA-Z0-9_-]+$` (anchored; `+` requires a
nonempty tail). -/
def matchesGolinkPattern (s : String) : Bool :=
  match s.data with
  | c1 :: c2 :: c3 :: rest =>
    c1 = 'g' && c2 = 'o' && c3 = '/' && !rest.isEmpty &&
      rest.all isAllowedChar
  | _ => false

/-- `validate_golink_pattern` (`service.rs`). -/
def validate_golink_pattern (short_link : String) : Except String Unit :=
  if matchesGolinkPattern short_link then .ok ()
  else .error "Invalid golink pattern. Must match \x27go/[a-zA-Z0-9_-]+\x27"

/-- `create_golink` handler.  `gen_id` and `gen_ts` stand for the values
of `Uuid::new_v4()` and `Utc::now().to_rfc3339()` drawn at this request,
which the handler does not control. -/
def create_golink {σ : Type} (ops : StorageOps σ) (req : CreateGolink)
    (gen_id gen_ts : String) (st : σ) : Response × σ :=
  match validate_golink_pattern req.short_link with
  | .error e => (⟨400, .errorMsg e⟩, st)
  | .ok _ =>
    let golink : Golink :=
      { id := gen_id, short_link := req.short_link, url := req.url,
        created_at := gen_ts }
    match ops.create golink st with
    | (.ok _, st2) => (⟨201, .golink golink⟩, st2)
    | (.error .alreadyExists, st2) =>
        (⟨409, .errorMsg "Golink already exists"⟩, st2)
    | (.error (.databaseError e), st2) =>
        (⟨500, .errorMsg ("Database error: " ++ e)⟩, st2)
    | (.error .notFound, st2) =>
        (⟨500, .errorMsg "Unexpected error"⟩, st2)

/-- `get_golink` handler (read-only). -/
def get_golink {σ : Type} (ops : StorageOps σ) (short_link : String)
    (st : σ) : Response :=
  match ops.get short_link st with
  | .ok g => ⟨200, .golink g⟩
  | .error .notFound => ⟨404, .errorMsg "Golink not found"⟩
  | .error (.databaseError e) => ⟨500, .errorMsg ("Database error: " ++ e)⟩
  | .error .alreadyExists => ⟨500, .errorMsg "Unexpected error"⟩

/-- Query parameters as decoded by warp into a `HashMap<String, String>`:
at most one value per key; lookup is by key. -/
abbrev QueryParams := List (String × String)

/-- Rust `str::parse::<usize>`: an optional leading `+`, then one or more
ASCII digits, and the value must fit in a 64-bit usize. -/
def parseUsize (s : String) : Option Nat :=
  let body := match s.data with
    | '+' :: rest => rest
    | ds => ds
  if body.isEmpty then none
  else if body.all Char.isDigit then
    let v := body.foldl (fun a c => a * 10 + (c.toNat - 48)) 0
    if v < 2 ^ 64 then some v else none
  else none

/-- The handler's `page` value: parse failures and absence fall back to 1,
then `.max(1)`. -/
def pageOf (params : QueryParams) : Nat :=
  (((params.lookup "page").bind parseUsize).getD 1).max 1

/-- The handler's `page_size` value: fall back to 10, then `.min(100)`
and `.max(1)`. -/
def pageSizeOf (params : QueryParams) : Nat :=
  ((((params.lookup "page_size").bind parseUsize).getD 10).min 100).max 1

/-- `params.contains_key("page") || params.contains_key("page_size")`. -/
def usePagination (params : QueryParams) : Bool :=
  (params.lookup "page").isSome || (params.lookup "page_size").isSome

/-- `(total_items + page_size - 1) / page_size` from the handler. -/
def totalPagesCalc (total_items page_size : Nat) : Nat :=
  (total_items + page_size - 1) / page_size

/-- `get_all_golinks` handler (read-only): dual-mode listing. -/
def get_all_golinks {σ : Type} (ops : StorageOps σ) (params : QueryParams)
    (st : σ) : Response :=
  let page := pageOf params
  let page_size := pageSizeOf params
  if usePagination params then
    match ops.get_paginated page page_size st with
    | .ok (golinks, total_items) =>
        ⟨200, .paginated golinks page page_size total_items
          (totalPagesCalc total_items page_size)⟩
    | .error (.databaseError e) => ⟨500, .errorMsg ("Database error: " ++ e)⟩
    | .error _ => ⟨500, .errorMsg "Unexpected error"⟩
  else
    match ops.get_all st with
    | .ok golinks => ⟨200, .golinkList golinks⟩
    | .error (.databaseError e) => ⟨500, .errorMsg ("Database error: " ++ e)⟩
    | .error _ => ⟨500, .errorMsg "Unexpected error"⟩

/-! ### Specification-side definitions

These follow the spec's words rather than the code, for claims that
compare the two. -/

/-- Spec side: one allowed alias character — a letter, a digit, an
underscore or a hyphen. -/
def allowedCharSpec (c : Char) : Prop :=
  ('a' ≤ c ∧ c ≤ 'z') ∨ ('A' ≤ c ∧ c ≤ 'Z') ∨ ('0' ≤ c ∧ c ≤ '9') ∨
    c = '_' ∨ c = '-'

/-- Spec side: the alias is `go/` followed by one or more allowed
characters. -/
def golinkPatternSpec (s : String) : Prop :=
  ∃ rest, s.data = 'g' :: 'o' :: '/' :: rest ∧ rest ≠ [] ∧
    ∀ c ∈ rest, allowedCharSpec c

/-- Spec side: the pagination window over an ordered listing `l`:
`offset = (page-1)*pageSize`; an empty slice when `offset ≥ totalCount`,
otherwise the window of at most `pageSize` items starting at `offset`;
paired with the total count. -/
def specWindow (l : List Golink) (page page_size : Nat) :
    List Golink × Nat :=
  let offset := (page - 1) * page_size
  (if l.length ≤ offset then [] else (l.drop offset).take page_size,
   l.length)

/-- Concatenation of the first `k` chunks of `page_size` elements of a
list. -/
def chunkConcat (page_size : Nat) : Nat → List Golink → List Golink
  | 0, _ => []
  | k + 1, l => l.take page_size ++ chunkConcat page_size k (l.drop page_size)

/-- Concatenation of the slices returned by the volatile backend's
`get_paginated` for `k` consecutive pages starting at `page`. -/
def concatPages (st : HMState) (page_size : Nat) : Nat → Nat → List Golink
  | 0, _ => []
  | k + 1, page =>
    match HashMapStorage.get_paginated page page_size st with
    | .ok (items, _) => items ++ concatPages st page_size k (page + 1)
    | .error _ => []

/-- Number of pages needed to exhaust the listing. -/
def numPages (st : HMState) (page_size : Nat) : Nat :=
  (st.length + page_size - 1) / page_size

/-- Well-formedness of a backend state: at most one entry per
`short_link` — the map-key invariant of the volatile backend, the UNIQUE
constraint of the durable one. -/
def wellFormed (st : List Golink) : Prop :=
  (st.map (fun g => g.short_link)).Nodup

/-- A backend (one more implementation of the storage capability) whose
calls all fail with a `DatabaseError` carrying the given internal
detail. -/
def faultyOps (detail : String) : StorageOps Unit where
  create := fun _ s => (.error (.databaseError detail), s)
  get := fun _ _ => .error (.databaseError detail)
  get_all := fun _ => .error (.databaseError detail)
  get_paginated := fun _ _ _ => .error (.databaseError detail)
  update := fun _ _ s => (.error (.databaseError detail), s)

/-! ### Concrete Golinks used in witnesses and counterexamples -/

/-- Created first, so carries the older timestamp. -/
def gA : Golink :=
  { id := "id-a", short_link := "go/a", url := "https://a.example",
    created_at := "2024-01-01T00:00:00+00:00" }

/-- Created second, so carries the newer timestamp. -/
def gB : Golink :=
  { id := "id-b", short_link := "go/b", url := "https://b.example",
    created_at := "2024-01-02T00:00:00+00:00" }

/-- A second create request for the key of `gA` with a different url. -/
def gA2 : Golink :=
  { id := "id-a2", short_link := "go/a", url := "https://a2.example",
    created_at := "2024-01-03T00:00:00+00:00" }

/-- Volatile-backend state reached by creating `gA` and then `gB`. -/
def stAB : HMState :=
  (HashMapStorage.create gB (HashMapStorage.create gA []).2).2

/-! ## Theorems -/

theorem chLe_total : ∀ a b : List Char, chLe a b = true ∨ chLe b a = true := by
  intro a
  induction a with
  | nil => intro b; left; rfl
  | cons x xs ih =>
    intro b
    cases b with
    | nil => right; rfl
    | cons y ys =>
      by_cases h1 : x.toNat < y.toNat
      · left; simp [chLe, h1]
      · by_cases h2 : y.toNat < x.toNat
        · right; simp [chLe, h2]
        · have := ih ys
          rcases this with h | h
          · left; simp [chLe, h1, h2, h]
          · right; simp [chLe, h1, h2, h]

theorem chLe_trans : ∀ a b c : List Char,
    chLe a b = true → chLe b c = true → chLe a c = true := by
  intro a
  induction a with
  | nil => intro b c _ _; rfl
  | cons x xs ih =>
    intro b c hab hbc
    cases b with
    | nil => simp [chLe] at hab
    | cons y ys =>
      cases c with
      | nil => simp [chLe] at hbc
      | cons z zs =>
        simp only [chLe] at hab hbc ⊢
        by_cases hxy : x.toNat < y.toNat
        · by_cases hyz : y.toNat < z.toNat
          · have : x.toNat < z.toNat := by omega
            simp [this]
          · by_cases hzy : z.toNat < y.toNat
            · simp [hyz, hzy] at hbc
            · have : x.toNat < z.toNat := by omega
              simp [this]
        · by_cases hyx : y.toNat < x.toNat
          · simp [hxy, hyx] at hab
          · by_cases hyz : y.toNat < z.toNat
            · have : x.toNat < z.toNat := by omega
              simp [this]
            · by_cases hzy : z.toNat < y.toNat
              · simp [hyz, hzy] at hbc
              · have hxz : ¬ x.toNat < z.toNat := by omega
                have hzx : ¬ z.toNat < x.toNat := by omega
                simp only [hxy, hyx, if_false, if_neg hxz, if_neg hzx] at hab ⊢
                simp only [hyz, hzy, if_false] at hbc
                exact ih ys zs hab hbc

theorem strLe_total (a b : String) : strLe a b = true ∨ strLe b a = true :=
  chLe_total a.data b.data

theorem strLe_trans {a b c : String} :
    strLe a b = true → strLe b c = true → strLe a c = true :=
  chLe_trans a.data b.data c.data

/-! ### Helper lemmas about the listing order -/

theorem sortByCreatedDesc_perm (l : List Golink) :
    (sortByCreatedDesc l).Perm l :=
  List.perm_insertionSort createdDesc l

theorem sortByCreatedDesc_sorted (l : List Golink) :
    List.Sorted createdDesc (sortByCreatedDesc l) := by
  haveI : IsTotal Golink createdDesc :=
    ⟨fun a b => (strLe_total b.created_at a.created_at).elim Or.inl Or.inr⟩
  haveI : IsTrans Golink createdDesc :=
    ⟨fun _ _ _ hab hbc => strLe_trans hbc hab⟩
  exact List.sorted_insertionSort createdDesc l

theorem length_sortByCreatedDesc (l : List Golink) :
    (sortByCreatedDesc l).length = l.length :=
  (sortByCreatedDesc_perm l).length_eq

/-! ### Helper lemmas about pagination -/

theorem hm_get_paginated_eq (page page_size : Nat) (st : HMState) :
    HashMapStorage.get_paginated page page_size st =
      .ok (specWindow (sortByCreatedDesc st) page page_size) := by
  unfold HashMapStorage.get_paginated specWindow
  by_cases h : (page - 1) * page_size < (sortByCreatedDesc st).length
  · simp [h, Nat.not_le.mpr h]
  · simp [h, Nat.not_lt.mp h]

theorem sq_get_paginated_eq (page page_size : Nat) (st : SqState) :
    SqliteStorage.get_paginated page page_size st =
      .ok (specWindow (sortByCreatedDesc st) page page_size) := by
  unfold SqliteStorage.get_paginated specWindow
  simp only [length_sortByCreatedDesc]
  by_cases h : st.length ≤ (page - 1) * page_size
  · have h2 : (sortByCreatedDesc st).length ≤ (page - 1) * page_size := by
      rw [length_sortByCreatedDesc]; exact h
    simp [h, List.drop_eq_nil_of_le h2]
  · simp [h]

theorem specWindow_length_le (l : List Golink) (page page_size : Nat) :
    (specWindow l page page_size).1.length ≤ page_size := by
  unfold specWindow
  by_cases h : l.length ≤ (page - 1) * page_size
  · simp [h]
  · simp [h]

theorem chunkConcat_eq_self (page_size : Nat) :
    ∀ (k : Nat) (l : List Golink), l.length ≤ k * page_size →
      chunkConcat page_size k l = l := by
  intro k
  induction k with
  | zero =>
    intro l hl
    simp at hl
    simp [chunkConcat, hl]
  | succ k ih =>
    intro l hl
    have hmul : (k + 1) * page_size = k * page_size + page_size :=
      Nat.succ_mul k page_size
    unfold chunkConcat
    rw [ih (l.drop page_size) (by rw [List.length_drop]; omega)]
    exact List.take_append_drop page_size l

theorem concatPages_eq_chunkConcat (st : HMState) (page_size : Nat) :
    ∀ (k page : Nat), 1 ≤ page →
      concatPages st page_size k page =
        chunkConcat page_size k
          ((sortByCreatedDesc st).drop ((page - 1) * page_size)) := by
  intro k
  induction k with
  | zero => intro page _; rfl
  | succ k ih =>
    intro page hpage
    unfold concatPages chunkConcat
    rw [hm_get_paginated_eq]
    have harith : (page - 1) * page_size + page_size = page * page_size := by
      cases page with
      | zero => omega
      | succ p => simp [Nat.succ_sub_one, Nat.succ_mul]
    have hdrop : ((sortByCreatedDesc st).drop ((page - 1) * page_size)).drop
        page_size = (sortByCreatedDesc st).drop ((page + 1 - 1) * page_size) := by
      rw [List.drop_drop, harith]
      simp
    rw [ih (page + 1) (by omega), hdrop]
    by_cases h : (sortByCreatedDesc st).length ≤ (page - 1) * page_size
    · have h2 := List.drop_eq_nil_of_le h
      simp [specWindow, h, h2]
    · simp [specWindow, h]

/-! ### Helper lemmas for ceiling division (pagination metadata) -/

theorem totalPagesCalc_le_iff {page_size : Nat} (hps : 1 ≤ page_size)
    (total_items k : Nat) :
    totalPagesCalc total_items page_size ≤ k ↔ total_items ≤ k * page_size := by
  unfold totalPagesCalc
  rw [Nat.div_le_iff_le_mul_add_pred (by omega)]
  constructor
  · intro h
    have := Nat.mul_comm page_size k
    omega
  · intro h
    have := Nat.mul_comm page_size k
    omega

theorem totalPagesCalc_eq_ceil {page_size : Nat} (hps : 1 ≤ page_size)
    (total_items : Nat) :
    totalPagesCalc total_items page_size =
      ⌈(total_items : ℚ) / (page_size : ℚ)⌉₊ := by
  have hps0 : (0 : ℚ) < (page_size : ℚ) := by
    exact_mod_cast Nat.lt_of_lt_of_le Nat.zero_lt_one hps
  apply le_antisymm
  · rw [totalPagesCalc_le_iff hps]
    have h1 : (total_items : ℚ) / (page_size : ℚ) ≤
        (⌈(total_items : ℚ) / (page_size : ℚ)⌉₊ : ℚ) := Nat.le_ceil _
    have h2 : (total_items : ℚ) ≤
        (⌈(total_items : ℚ) / (page_size : ℚ)⌉₊ : ℚ) * (page_size : ℚ) := by
      rw [← div_le_iff₀ hps0]
      exact h1
    exact_mod_cast h2
  · rw [Nat.ceil_le, div_le_iff₀ hps0]
    have h3 : total_items ≤ totalPagesCalc total_items page_size * page_size :=
      (totalPagesCalc_le_iff hps total_items _).mp (le_refl _)
    exact_mod_cast h3

/-! ### Helper lemmas for update -/

theorem map_id_of_no_key (k url : String) :
    ∀ (l : List Golink), (∀ g ∈ l, g.short_link ≠ k) →
      l.map (fun g => if g.short_link = k then { g with url := url } else g)
        = l := by
  intro l
  induction l with
  | nil => intro _; rfl
  | cons a l ih =>
    intro h
    have ha : a.short_link ≠ k := h a (List.mem_cons_self a l)
    simp only [List.map_cons, if_neg ha]
    rw [ih (fun g hg => h g (List.mem_cons_of_mem a hg))]

theorem updateEntry_none (k url : String) :
    ∀ (l : List Golink), (∀ g ∈ l, g.short_link ≠ k) →
      HashMapStorage.updateEntry k url l = none := by
  intro l
  induction l with
  | nil => intro _; rfl
  | cons a l ih =>
    intro h
    have ha : a.short_link ≠ k := h a (List.mem_cons_self a l)
    unfold HashMapStorage.updateEntry
    rw [if_neg ha, ih (fun g hg => h g (List.mem_cons_of_mem a hg))]

theorem not_mem_keys_of_nodup {a : Golink} {l : List Golink}
    (hnd : ((a :: l).map (fun g => g.short_link)).Nodup) :
    ∀ g ∈ l, g.short_link ≠ a.short_link := by
  intro g hg heq
  simp only [List.map_cons, List.nodup_cons] at hnd
  exact hnd.1 (heq ▸ List.mem_map_of_mem (fun g => g.short_link) hg)

theorem updateEntry_some (k url : String) :
    ∀ (l : List Golink), wellFormed l →
      ∀ g0 ∈ l, g0.short_link = k →
        HashMapStorage.updateEntry k url l =
          some ({ g0 with url := url },
            l.map (fun g => if g.short_link = k then { g with url := url }
              else g)) := by
  intro l
  induction l with
  | nil => intro _ g0 h0; exact absurd h0 (List.not_mem_nil g0)
  | cons a l ih =>
    intro hwf g0 h0 hk
    have hnd := hwf
    unfold wellFormed at hnd
    by_cases ha : a.short_link = k
    · have hg0a : g0 = a := by
        rcases List.mem_cons.mp h0 with h | h
        · exact h
        · exact absurd (hk.trans ha.symm) (not_mem_keys_of_nodup hnd g0 h)
      unfold HashMapStorage.updateEntry
      rw [if_pos ha]
      simp only [List.map_cons, if_pos ha, hg0a]
      rw [map_id_of_no_key k url l
        (fun g hg => (ha ▸ not_mem_keys_of_nodup hnd g hg : g.short_link ≠ k))]
    · have hg0l : g0 ∈ l := by
        rcases List.mem_cons.mp h0 with h | h
        · exact absurd (h ▸ hk) ha
        · exact h
      have hwfl : wellFormed l := by
        unfold wellFormed at hwf ⊢
        exact (List.nodup_cons.mp hwf).2
      unfold HashMapStorage.updateEntry
      rw [if_neg ha, ih hwfl g0 hg0l hk]
      simp only [List.map_cons, if_neg ha]

theorem find?_map_of_key (k url : String) :
    ∀ (l : List Golink), wellFormed l →
      ∀ g0 ∈ l, g0.short_link = k →
        (l.map (fun g => if g.short_link = k then { g with url := url }
            else g)).find? (fun r => r.short_link = k)
          = some { g0 with url := url } := by
  intro l
  induction l with
  | nil => intro _ g0 h0; exact absurd h0 (List.not_mem_nil g0)
  | cons a l ih =>
    intro hwf g0 h0 hk
    by_cases ha : a.short_link = k
    · have hg0a : g0 = a := by
        rcases List.mem_cons.mp h0 with h | h
        · exact h
        · exact absurd (hk.trans ha.symm) (not_mem_keys_of_nodup hwf g0 h)
      simp only [List.map_cons, if_pos ha, List.find?_cons]
      have hdec : decide (a.short_link = k) = true := by simp [ha]
      rw [hdec, hg0a]
    · have hg0l : g0 ∈ l := by
        rcases List.mem_cons.mp h0 with h | h
        · exact absurd (h ▸ hk) ha
        · exact h
      have hwfl : wellFormed l := by
        unfold wellFormed at hwf ⊢
        exact (List.nodup_cons.mp hwf).2
      simp only [List.map_cons, if_neg ha, List.find?_cons]
      have hdec : decide (a.short_link = k) = false := by simp [ha]
      rw [hdec]
      exact ih hwfl g0 hg0l hk

/-! ### Helper lemma for string append cancellation -/

theorem string_append_right_inj (s a b : String) :
    s ++ a = s ++ b ↔ a = b := by
  constructor
  · intro h
    have hd := congrArg String.data h
    simp only [String.data_append] at hd
    exact String.ext (List.append_cancel_left hd)
  · intro h; rw [h]

/-! ### Helper lemmas for the alias pattern -/

theorem isAllowedChar_iff (c : Char) :
    isAllowedChar c = true ↔ allowedCharSpec c := by
  unfold isAllowedChar allowedCharSpec
  simp [Char.isAlpha, Char.isUpper, Char.isLower, Char.isDigit, Char.le_def]
  tauto

theorem matchesGolinkPattern_iff (s : String) :
    matchesGolinkPattern s = true ↔ golinkPatternSpec s := by
  unfold matchesGolinkPattern golinkPatternSpec
  cases hd : s.data with
  | nil => simp [hd]
  | cons c1 t1 =>
    cases t1 with
    | nil => simp
    | cons c2 t2 =>
      cases t2 with
      | nil => simp
      | cons c3 rest =>
        simp only [Bool.and_eq_true, decide_eq_true_eq, Bool.not_eq_true',
          List.isEmpty_eq_false, List.all_eq_true, List.cons.injEq]
        constructor
        · rintro ⟨⟨⟨⟨h1, h2⟩, h3⟩, h4⟩, h5⟩
          exact ⟨rest, ⟨h1, h2, h3, rfl⟩, h4,
            fun c hc => (isAllowedChar_iff c).mp (h5 c hc)⟩
        · rintro ⟨rest2, ⟨h1, h2, h3, h4⟩, h5, h6⟩
          subst h1; subst h2; subst h3; subst h4
          exact ⟨⟨⟨⟨rfl, rfl⟩, rfl⟩, h5⟩,
            fun c hc => (isAllowedChar_iff c).mpr (h6 c hc)⟩

/-! ### Helper lemmas for duplicate detection -/

theorem hm_containsKey_of_mem {g0 : Golink} {st : HMState} {k : String}
    (h : g0 ∈ st) (hk : g0.short_link = k) :
    HashMapStorage.containsKey k st = true := by
  unfold HashMapStorage.containsKey
  exact List.any_eq_true.mpr ⟨g0, h, by simp [hk]⟩

theorem any_key_of_mem {g0 : Golink} {st : List Golink} {k : String}
    (h : g0 ∈ st) (hk : g0.short_link = k) :
    st.any (fun r => r.short_link = k) = true :=
  List.any_eq_true.mpr ⟨g0, h, by simp [hk]⟩

/-! ### Helper lemmas for the service parameters -/

theorem pageOf_pos (params : QueryParams) : 1 ≤ pageOf params :=
  Nat.le_max_right _ 1

theorem pageSizeOf_pos (params : QueryParams) : 1 ≤ pageSizeOf params :=
  Nat.le_max_right _ 1

theorem pageSizeOf_le (params : QueryParams) : pageSizeOf params ≤ 100 :=
  Nat.max_le.mpr ⟨Nat.min_le_right _ 100, by omega⟩

/-! ### Helper lemma for the paginated listing handler -/

theorem get_all_golinks_paginated_mode (params : QueryParams) (st : HMState)
    (h : usePagination params = true) :
    get_all_golinks hashMapOps params st =
      ⟨200, .paginated
        (specWindow (sortByCreatedDesc st) (pageOf params) (pageSizeOf params)).1
        (pageOf params) (pageSizeOf params) st.length
        (totalPagesCalc st.length (pageSizeOf params))⟩ := by
  unfold get_all_golinks
  simp only [h, if_true, hashMapOps, hm_get_paginated_eq, specWindow,
    length_sortByCreatedDesc]

/-! ## Claims -/

/-- C1, counterexample: in the volatile backend the state reached by
creating `gA` (older `created_at`) and then `gB` (newer `created_at`) has
`get_all` return the values in map order `[gA, gB]`, which is not
descending by `created_at` — refuting C1's "sorted descending ... in both
... backend(s)". -/
theorem C1_counterexample :
    HashMapStorage.get_all stAB = Except.ok [gA, gB] ∧
    ¬ List.Sorted createdDesc [gA, gB] := by
  refine ⟨rfl, ?_⟩
  intro hs
  have h := (List.sorted_cons.mp hs).1 gB (List.mem_singleton.mpr rfl)
  revert h
  decide

/-- C1, amended: `get_all` returns the full stored sequence in both
backends; the durable (SQLite) backend returns it sorted descending by
`created_at` (a permutation of the stored rows), while the volatile
(HashMap) backend returns the map's values in iteration order with no
sort applied. -/
theorem C1_get_all_amended (hm : HMState) (sq : SqState) :
    HashMapStorage.get_all hm = Except.ok hm ∧
    SqliteStorage.get_all sq = Except.ok (sortByCreatedDesc sq) ∧
    List.Sorted createdDesc (sortByCreatedDesc sq) ∧
    (sortByCreatedDesc sq).Perm sq :=
  ⟨rfl, rfl, sortByCreatedDesc_sorted sq, sortByCreatedDesc_perm sq⟩

/-- C2, counterexample: the storage-level `get_paginated` does not clamp
`page_size` to `[1,100]` before computing the slice: with one stored item,
`page_size = 0` yields an empty slice where the clamped value 1 yields the
item, so the two calls differ — refuting the claim that the clamp happens
inside every storage `get_paginated` call. -/
theorem C2_counterexample :
    HashMapStorage.get_paginated 1 0 [gA] ≠
      HashMapStorage.get_paginated 1 1 [gA] := by
  intro h
  have h1 : HashMapStorage.get_paginated 1 0 [gA] =
      Except.ok (([] : List Golink), 1) := rfl
  have h2 : HashMapStorage.get_paginated 1 1 [gA] =
      Except.ok ([gA], 1) := rfl
  rw [h1, h2] at h
  simp at h

/-- C2, amended: both backends' `get_paginated` treat `page` as 1-based
and clamp it to at least 1 (page 0 behaves as page 1, via saturating
subtraction), but use `page_size` unclamped; the clamp of `page` to ≥ 1
and of `page_size` to `[1,100]` is performed by the service layer before
every call it makes to `get_paginated`. -/
theorem C2_clamping_amended (hm : HMState) (sq : SqState)
    (params : QueryParams) (p ps : Nat) :
    HashMapStorage.get_paginated p ps hm =
      HashMapStorage.get_paginated (max p 1) ps hm ∧
    SqliteStorage.get_paginated p ps sq =
      SqliteStorage.get_paginated (max p 1) ps sq ∧
    1 ≤ pageOf params ∧ 1 ≤ pageSizeOf params ∧ pageSizeOf params ≤ 100 := by
  have hp : p - 1 = max p 1 - 1 := by omega
  refine ⟨?_, ?_, pageOf_pos params, pageSizeOf_pos params,
    pageSizeOf_le params⟩
  · unfold HashMapStorage.get_paginated
    rw [hp]
  · unfold SqliteStorage.get_paginated
    rw [hp]

/-- C3: for `page ≥ 1` and `page_size ∈ [1,100]`, `get_paginated` in both
backends returns exactly the spec's window of the descending listing —
`offset = (page-1)*page_size`; an empty slice with the correct total when
`offset ≥` item count; otherwise the at-most-`page_size`-item window at
`offset` — paired with the total stored count. -/
theorem C3_get_paginated_window (hm : HMState) (sq : SqState)
    (page page_size : Nat) (hpage : 1 ≤ page)
    (hps1 : 1 ≤ page_size) (hps2 : page_size ≤ 100) :
    HashMapStorage.get_paginated page page_size hm =
      Except.ok (specWindow (sortByCreatedDesc hm) page page_size) ∧
    SqliteStorage.get_paginated page page_size sq =
      Except.ok (specWindow (sortByCreatedDesc sq) page page_size) ∧
    (specWindow (sortByCreatedDesc hm) page page_size).2 = hm.length ∧
    (specWindow (sortByCreatedDesc sq) page page_size).2 = sq.length ∧
    (specWindow (sortByCreatedDesc hm) page page_size).1.length ≤ page_size ∧
    (hm.length ≤ (page - 1) * page_size →
      (specWindow (sortByCreatedDesc hm) page page_size).1 = []) := by
  refine ⟨hm_get_paginated_eq page page_size hm,
    sq_get_paginated_eq page page_size sq, ?_, ?_,
    specWindow_length_le _ page page_size, ?_⟩
  · simp [specWindow, length_sortByCreatedDesc]
  · simp [specWindow, length_sortByCreatedDesc]
  · intro h
    have h2 : (sortByCreatedDesc hm).length ≤ (page - 1) * page_size := by
      rw [length_sortByCreatedDesc]; exact h
    simp [specWindow, h2]

/-- C3, witness at page 2, page size 1 over two stored items (volatile)
and one stored item (durable). -/
theorem C3_witness :
    HashMapStorage.get_paginated 2 1 [gA, gB] =
      Except.ok (specWindow (sortByCreatedDesc [gA, gB]) 2 1) ∧
    SqliteStorage.get_paginated 2 1 [gA] =
      Except.ok (specWindow (sortByCreatedDesc [gA]) 2 1) ∧
    (specWindow (sortByCreatedDesc [gA, gB]) 2 1).2 =
      ([gA, gB] : List Golink).length ∧
    (specWindow (sortByCreatedDesc [gA]) 2 1).2 =
      ([gA] : List Golink).length ∧
    (specWindow (sortByCreatedDesc [gA, gB]) 2 1).1.length ≤ 1 ∧
    (([gA, gB] : List Golink).length ≤ (2 - 1) * 1 →
      (specWindow (sortByCreatedDesc [gA, gB]) 2 1).1 = []) :=
  C3_get_paginated_window [gA, gB] [gA] 2 1 (by decide) (by decide) (by decide)

/-- C4: a create for a `short_link` already present returns
`AlreadyExists` (surfaced as Conflict by the service) and leaves the
state — hence the stored url — unchanged, in both backends.  Both
check-then-insert sequences are single atomic state transformers:
the volatile backend holds its write lock across the check and the
insert, the durable one uses a single constrained INSERT. -/
theorem C4_duplicate_create (hm : HMState) (sq : SqState) (g gh gs : Golink)
    (hmem : gh ∈ hm) (hkey : gh.short_link = g.short_link)
    (smem : gs ∈ sq) (skey : gs.short_link = g.short_link) :
    HashMapStorage.create g hm = (.error .alreadyExists, hm) ∧
    SqliteStorage.create g sq = (.error .alreadyExists, sq) := by
  constructor
  · unfold HashMapStorage.create
    rw [hm_containsKey_of_mem hmem hkey]
    simp
  · unfold SqliteStorage.create
    rw [any_key_of_mem smem skey]
    simp

/-- C4, witness: creating `gA2` (same key as the stored `gA`, different
url) is rejected by both backends with the state intact. -/
theorem C4_witness :
    HashMapStorage.create gA2 [gA] = (.error .alreadyExists, [gA]) ∧
    SqliteStorage.create gA2 [gA] = (.error .alreadyExists, [gA]) :=
  C4_duplicate_create [gA] [gA] gA2 gA gA (by decide) (by decide)
    (by decide) (by decide)

/-- C5: a create request whose `short_link` does not match
`go/[a-zA-Z0-9_-]+` is answered with HTTP 400 and the fixed validation
message, the state is returned unchanged and no storage operation
contributes to the response (the rejection is computed before the
storage call, for an arbitrary backend `ops`); every `short_link`
matching the pattern passes validation. -/
theorem C5_validation (σ : Type) (ops : StorageOps σ) (req : CreateGolink)
    (gen_id gen_ts : String) (st : σ) :
    (¬ golinkPatternSpec req.short_link →
      create_golink ops req gen_id gen_ts st =
        (⟨400, .errorMsg
          "Invalid golink pattern. Must match \x27go/[a-zA-Z0-9_-]+\x27"⟩,
         st)) ∧
    (golinkPatternSpec req.short_link →
      validate_golink_pattern req.short_link = .ok ()) := by
  constructor
  · intro h
    have hb : matchesGolinkPattern req.short_link = false := by
      rcases Bool.eq_false_or_eq_true (matchesGolinkPattern req.short_link)
        with h' | h'
      · exact absurd ((matchesGolinkPattern_iff _).mp h') h
      · exact h'
    unfold create_golink validate_golink_pattern
    rw [hb]
    simp
  · intro h
    unfold validate_golink_pattern
    rw [(matchesGolinkPattern_iff _).mpr h]
    simp

/-- C5, witness: `"not-a-golink"` is rejected with 400 and an unchanged
empty state; `"go/a"` passes validation. -/
theorem C5_witness :
    create_golink hashMapOps
        { short_link := "not-a-golink", url := "https://x.example" }
        "id-x" "2024-01-01T00:00:00+00:00" [] =
      (⟨400, .errorMsg
        "Invalid golink pattern. Must match \x27go/[a-zA-Z0-9_-]+\x27"⟩,
       ([] : HMState)) ∧
    validate_golink_pattern "go/a" = .ok () := by
  constructor
  · exact (C5_validation HMState hashMapOps
      { short_link := "not-a-golink", url := "https://x.example" }
      "id-x" "2024-01-01T00:00:00+00:00" []).1
      (fun hspec =>
        absurd ((matchesGolinkPattern_iff _).mpr hspec) (by decide))
  · exact (C5_validation HMState hashMapOps
      { short_link := "go/a", url := "https://x.example" }
      "id-x" "2024-01-01T00:00:00+00:00" []).2
      ((matchesGolinkPattern_iff _).mp (by decide))

/-- C6: on a well-formed state, `update(key, url2)` with the key present
returns the stored entity with only `url` replaced (`id`, `short_link`,
`created_at` unchanged) and rewrites exactly the matching entry, leaving
every other entry unchanged; with the key absent it returns `NotFound`
and the state unchanged — in both backends. -/
theorem C6_update (hm : HMState) (sq : SqState) (k url2 : String)
    (hwfh : wellFormed hm) (hwfs : wellFormed sq) :
    (∀ g0, g0 ∈ hm → g0.short_link = k →
      HashMapStorage.update k url2 hm =
        (.ok { g0 with url := url2 },
         hm.map (fun g => if g.short_link = k then { g with url := url2 }
           else g))) ∧
    ((∀ g ∈ hm, g.short_link ≠ k) →
      HashMapStorage.update k url2 hm = (.error .notFound, hm)) ∧
    (∀ g0, g0 ∈ sq → g0.short_link = k →
      SqliteStorage.update k url2 sq =
        (.ok { g0 with url := url2 },
         sq.map (fun g => if g.short_link = k then { g with url := url2 }
           else g))) ∧
    ((∀ g ∈ sq, g.short_link ≠ k) →
      SqliteStorage.update k url2 sq = (.error .notFound, sq)) := by
  refine ⟨?_, ?_, ?_, ?_⟩
  · intro g0 hmem hkey
    unfold HashMapStorage.update
    rw [updateEntry_some k url2 hm hwfh g0 hmem hkey]
  · intro h
    unfold HashMapStorage.update
    rw [updateEntry_none k url2 hm h]
  · intro g0 hmem hkey
    unfold SqliteStorage.update
    rw [any_key_of_mem hmem hkey]
    simp only [if_true]
    unfold SqliteStorage.get
    rw [find?_map_of_key k url2 sq hwfs g0 hmem hkey]
  · intro h
    unfold SqliteStorage.update
    have hany : sq.any (fun r => r.short_link = k) = false := by
      simp only [List.any_eq_false]
      intro g hg
      simp [h g hg]
    rw [hany]
    simp

/-- C6, witness: updating the stored `go/a` rewrites only its url;
updating the absent `go/zzz` is `NotFound` with the state intact. -/
theorem C6_witness :
    HashMapStorage.update "go/a" "https://new.example" [gA, gB] =
      (.ok { gA with url := "https://new.example" },
       ([gA, gB] : List Golink).map (fun g =>
         if g.short_link = "go/a" then { g with url := "https://new.example" }
         else g)) ∧
    SqliteStorage.update "go/zzz" "https://new.example" [gA] =
      (.error .notFound, [gA]) := by
  constructor
  · exact (C6_update [gA, gB] [] "go/a" "https://new.example"
      (by unfold wellFormed; decide) (by unfold wellFormed; decide)).1
      gA (by decide) (by decide)
  · exact (C6_update [] [gA] "go/zzz" "https://new.example"
      (by unfold wellFormed; decide) (by unfold wellFormed; decide)).2.2.2
      (by decide)

/-- C7: for page size in `[1,100]` and at most 250 stored items,
concatenating the slices of pages `1, 2, ...` until the listing is
exhausted reproduces the full descending listing, which is a permutation
of the stored items (each item exactly once); the next page after
exhaustion is the empty slice with the correct total. -/
theorem C7_pages_partition (st : HMState) (page_size : Nat)
    (hps1 : 1 ≤ page_size) (hps2 : page_size ≤ 100)
    (hN : st.length ≤ 250) :
    concatPages st page_size (numPages st page_size) 1 =
      sortByCreatedDesc st ∧
    (sortByCreatedDesc st).Perm st ∧
    HashMapStorage.get_paginated (numPages st page_size + 1) page_size st =
      .ok ([], st.length) := by
  have hle : st.length ≤ numPages st page_size * page_size := by
    unfold numPages
    have h1 := Nat.div_add_mod (st.length + page_size - 1) page_size
    have h2 : (st.length + page_size - 1) % page_size < page_size :=
      Nat.mod_lt _ (by omega)
    have h3 := Nat.mul_comm ((st.length + page_size - 1) / page_size)
      page_size
    omega
  refine ⟨?_, sortByCreatedDesc_perm st, ?_⟩
  · rw [concatPages_eq_chunkConcat st page_size (numPages st page_size) 1
      (le_refl 1)]
    simp only [Nat.sub_self, Nat.zero_mul, List.drop_zero]
    exact chunkConcat_eq_self page_size (numPages st page_size) _
      (by rw [length_sortByCreatedDesc]; exact hle)
  · rw [hm_get_paginated_eq]
    have h2 : (sortByCreatedDesc st).length ≤
        numPages st page_size * page_size := by
      rw [length_sortByCreatedDesc]; exact hle
    simp [specWindow, Nat.add_sub_cancel, h2, length_sortByCreatedDesc]
    intro h
    omega

/-- C7, witness at page size 1 over two stored items. -/
theorem C7_witness :
    concatPages [gA, gB] 1 (numPages [gA, gB] 1) 1 =
      sortByCreatedDesc [gA, gB] ∧
    (sortByCreatedDesc [gA, gB]).Perm [gA, gB] ∧
    HashMapStorage.get_paginated (numPages [gA, gB] 1 + 1) 1 [gA, gB] =
      .ok ([], ([gA, gB] : List Golink).length) :=
  C7_pages_partition [gA, gB] 1 (by decide) (by decide) (by decide)

/-- C8: a successful paginated list response carries
`total_pages = (total_items + page_size - 1) / page_size`, which equals
the exact rational ceiling `ceil(total_items / page_size)` for every
`total_items ≥ 0` and `page_size ∈ [1,100]` (the handler's `page_size` is
always in that range). -/
theorem C8_total_pages (params : QueryParams) (st : HMState)
    (h : usePagination params = true) :
    get_all_golinks hashMapOps params st =
      ⟨200, .paginated
        (specWindow (sortByCreatedDesc st) (pageOf params)
          (pageSizeOf params)).1
        (pageOf params) (pageSizeOf params) st.length
        (totalPagesCalc st.length (pageSizeOf params))⟩ ∧
    totalPagesCalc st.length (pageSizeOf params) =
      ⌈(st.length : ℚ) / (pageSizeOf params : ℚ)⌉₊ ∧
    (∀ total_items page_size : Nat, 1 ≤ page_size → page_size ≤ 100 →
      totalPagesCalc total_items page_size =
        ⌈(total_items : ℚ) / (page_size : ℚ)⌉₊) :=
  ⟨get_all_golinks_paginated_mode params st h,
    totalPagesCalc_eq_ceil (pageSizeOf_pos params) _,
    fun t ps h1 _ => totalPagesCalc_eq_ceil h1 t⟩

/-- C8, witness: one stored item, `page=1` requested, default page size
10. -/
theorem C8_witness :
    get_all_golinks hashMapOps [("page", "1")] [gA] =
      ⟨200, .paginated
        (specWindow (sortByCreatedDesc [gA]) (pageOf [("page", "1")])
          (pageSizeOf [("page", "1")])).1
        (pageOf [("page", "1")]) (pageSizeOf [("page", "1")])
        ([gA] : List Golink).length
        (totalPagesCalc ([gA] : List Golink).length
          (pageSizeOf [("page", "1")]))⟩ ∧
    totalPagesCalc ([gA] : List Golink).length (pageSizeOf [("page", "1")]) =
      ⌈((([gA] : List Golink).length : ℚ)) /
        ((pageSizeOf [("page", "1")] : ℚ))⌉₊ ∧
    (∀ total_items page_size : Nat, 1 ≤ page_size → page_size ≤ 100 →
      totalPagesCalc total_items page_size =
        ⌈(total_items : ℚ) / (page_size : ℚ)⌉₊) :=
  C8_total_pages [("page", "1")] [gA] (by decide)

/-- C9, counterexample: two runs of the create handler that differ only
in the backend fault's internal detail string produce different outward
response bodies — the detail is not hidden behind a generic message. -/
theorem C9_counterexample :
    (create_golink (faultyOps "io fault one")
      { short_link := "go/a", url := "https://a.example" }
      "id-a" "2024-01-01T00:00:00+00:00" ()).1 ≠
    (create_golink (faultyOps "io fault two")
      { short_link := "go/a", url := "https://a.example" }
      "id-a" "2024-01-01T00:00:00+00:00" ()).1 := by
  decide

/-- C9, amended: a backend `DatabaseError(detail)` is surfaced as
HTTP 500 with body message `"Database error: " ++ detail` — the internal
detail is embedded in the outward response (for the create and read
handlers alike), and two such responses are equal exactly when the
details are equal. -/
theorem C9_database_error_detail (σ : Type) (ops : StorageOps σ)
    (req : CreateGolink) (gen_id gen_ts : String) (st st2 : σ)
    (k d : String)
    (hval : matchesGolinkPattern req.short_link = true)
    (hcreate : ops.create
        { id := gen_id, short_link := req.short_link, url := req.url,
          created_at := gen_ts } st = (.error (.databaseError d), st2)) :
    create_golink ops req gen_id gen_ts st =
      (⟨500, .errorMsg ("Database error: " ++ d)⟩, st2) ∧
    (ops.get k st = .error (.databaseError d) →
      get_golink ops k st = ⟨500, .errorMsg ("Database error: " ++ d)⟩) ∧
    (∀ d2 : String,
      (⟨500, Body.errorMsg ("Database error: " ++ d)⟩ : Response) =
        ⟨500, Body.errorMsg ("Database error: " ++ d2)⟩ ↔ d = d2) := by
  refine ⟨?_, ?_, ?_⟩
  · have hv : validate_golink_pattern req.short_link = .ok () := by
      unfold validate_golink_pattern
      rw [hval]
      rfl
    unfold create_golink
    rw [hv]
    simp only [hcreate]
  · intro hget
    unfold get_golink
    rw [hget]
  · intro d2
    simp [Response.mk.injEq, Body.errorMsg.injEq, string_append_right_inj]

/-- C9, witness: the all-faulty backend with detail `"disk is on fire"`
produces exactly the detail-bearing 500 response. -/
theorem C9_witness :
    create_golink (faultyOps "disk is on fire")
      { short_link := "go/a", url := "https://a.example" }
      "id-a" "2024-01-01T00:00:00+00:00" () =
      (⟨500, .errorMsg ("Database error: " ++ "disk is on fire")⟩, ()) ∧
    ((faultyOps "disk is on fire").get "go/a" () =
        .error (.databaseError "disk is on fire") →
      get_golink (faultyOps "disk is on fire") "go/a" () =
        ⟨500, .errorMsg ("Database error: " ++ "disk is on fire")⟩) ∧
    (∀ d2 : String,
      (⟨500, Body.errorMsg ("Database error: " ++ "disk is on fire")⟩ :
          Response) =
        ⟨500, Body.errorMsg ("Database error: " ++ d2)⟩ ↔
      "disk is on fire" = d2) :=
  C9_database_error_detail Unit (faultyOps "disk is on fire")
    { short_link := "go/a", url := "https://a.example" }
    "id-a" "2024-01-01T00:00:00+00:00" () () "go/a" "disk is on fire"
    (by decide) rfl

/-- C10: the list handler selects paginated mode exactly when the query
contains a `page` or `page_size` key (whether or not the values parse);
a missing or unparseable `page` yields 1, a missing or unparseable
`page_size` yields 10; and malformed pagination values never produce an
error response — the handler answers 200 for every parameter map. -/
theorem C10_pagination_params (params : QueryParams) (st : HMState) :
    (usePagination params = true ↔
      ((params.lookup "page").isSome ∨
        (params.lookup "page_size").isSome)) ∧
    ((params.lookup "page").bind parseUsize = none → pageOf params = 1) ∧
    ((params.lookup "page_size").bind parseUsize = none →
      pageSizeOf params = 10) ∧
    (get_all_golinks hashMapOps params st).status = 200 := by
  refine ⟨?_, ?_, ?_, ?_⟩
  · unfold usePagination
    simp [Bool.or_eq_true]
  · intro h
    unfold pageOf
    rw [h]
    rfl
  · intro h
    unfold pageSizeOf
    rw [h]
    rfl
  · by_cases h : usePagination params = true
    · rw [get_all_golinks_paginated_mode params st h]
    · have hb : usePagination params = false := by
        rcases Bool.eq_false_or_eq_true (usePagination params) with h' | h'
        · exact absurd h' h
        · exact h'
      unfold get_all_golinks
      rw [hb]
      simp [hashMapOps, HashMapStorage.get_all]

/-- C10, witness: `page=abc` (present but unparseable) selects paginated
mode, defaults to page 1 and page size 10, and still answers 200. -/
theorem C10_witness :
    pageOf [("page", "abc")] = 1 ∧
    pageSizeOf [("page", "abc")] = 10 ∧
    usePagination [("page", "abc")] = true ∧
    (get_all_golinks hashMapOps [("page", "abc")] [gA]).status = 200 := by
  have h := C10_pagination_params [("page", "abc")] [gA]
  exact ⟨h.2.1 (by decide), h.2.2.1 (by decide),
    h.1.mpr (by decide), h.2.2.2⟩
